import Mathlib

/-!
Shallow embedding of the mQTL matching tool (QTL peak detection, genes in
region lookup, KEGG pathway retrieval with retries, enrichment testing),
with theorems settling the specification claims against the code.

Sources embedded: GenesInRegion.py, QTL.py, GenesInPath.py,
GetEnzymesForGene.py, Pathways.py, main.py (statistical test section).
Remote HTTP access is modelled by an injected pure fetch oracle
of type String to Nat times String (url to status code and body text);
functions thread a call counter so invocation counts are observable.
-/

namespace MQTL

/-! ## Python string primitives

Every separator passed to split in the sources is a single character, so
the embedding uses a structurally recursive single character split (the
library splitOn is defined by well founded recursion, which the kernel
cannot evaluate); strip and startswith are embedded likewise. -/

/-- Python split with a one character separator over character lists: the
result always has at least one (possibly empty) group. -/
def splitChar (sep : Char) : List Char → List (List Char)
  | [] => [[]]
  | c :: cs =>
      if c = sep then [] :: splitChar sep cs
      else
        match splitChar sep cs with
        | [] => [[c]]
        | g :: gs => (c :: g) :: gs

/-- Python split with a one character separator over strings. -/
def pySplit (s : String) (sep : Char) : List String :=
  (splitChar sep s.toList).map fun l => ⟨l⟩

/-- Python strip: leading and trailing whitespace removed. -/
def pyStrip (s : String) : String :=
  ⟨((s.toList.dropWhile Char.isWhitespace).reverse.dropWhile
      Char.isWhitespace).reverse⟩

/-- Whether the second list starts with the first. -/
def startsWithList : List Char → List Char → Bool
  | [], _ => true
  | _ :: _, [] => false
  | p :: ps, c :: cs => p = c && startsWithList ps cs

/-- Python startswith. -/
def pyStartsWith (s pre : String) : Bool :=
  startsWithList pre.toList s.toList

/-- Python string slicing from a character index to the end. -/
def pyDrop (s : String) (n : Nat) : String := ⟨s.toList.drop n⟩

/-! ## GenesInRegion.py -/

/-- One well-formed data line of the GFF annotation file, after splitting on
tabs: column 1 (chromosome), column 3 (feature type), columns 4 and 5
(start and end, already parsed by int), and column 9 parsed into the
attribute dictionary produced by the attribute regular expression
(quotes already stripped from values; python dict semantics, later keys
overwrite earlier ones, which attrGet mirrors by taking the last binding). -/
structure GffRow where
  chr : String
  featureType : String
  start : Int
  «end» : Int
  attributes : List (String × String)
deriving DecidableEq, Repr

/-- Lookup in the attribute dictionary: python dict built by a comprehension
keeps the last value written for a key, hence lookup on the reversed list. -/
def attrGet (attrs : List (String × String)) (key : String) : Option String :=
  attrs.reverse.lookup key

/-- One entry of the genes_in_range result list
(keys gene_id, gene_name, chr, start, end). -/
structure GeneRec where
  gene_id : String
  gene_name : Option String
  chr : String
  start : Int
  «end» : Int
deriving DecidableEq, Repr

/-- The selection condition of GenesInRegion.genes_in_region (identical in
the parse branch and in the cached branch): the row is a gene feature, on
the chromosome named Chr followed by the query chromosome, and its start
or its end falls inside the closed query interval. -/
def rowMatches (target : String) (start_position end_position : Int)
    (r : GffRow) : Bool :=
  r.featureType = "gene" && r.chr = target
    && ((start_position ≤ r.start && r.start ≤ end_position)
        || (start_position ≤ r.«end» && r.«end» ≤ end_position))

/-- Building the result record for a matching row. The source computes
gene_id by concatenating ath: with attr_dict.get(ID); when the ID attribute
is absent, python get returns None and the string concatenation raises a
TypeError, aborting the call, which the error branch models. The Name
attribute may be absent (gene_name is then None). -/
def toGeneRec (r : GffRow) : Except Unit GeneRec :=
  match attrGet r.attributes "ID" with
  | none => .error ()
  | some i =>
      .ok { gene_id := "ath:" ++ i, gene_name := attrGet r.attributes "Name",
            chr := r.chr, start := r.start, «end» := r.«end» }

/-- GenesInRegion.genes_in_region over the cached list of parsed rows.
The chromosome argument is formatted as Chr followed by its decimal form,
matching the f-string in the source. Rows are filtered by rowMatches and
each match is converted to a GeneRec; a matching row whose attributes lack
the ID key makes the whole call raise (error) exactly as in the source. -/
def genes_in_region (gff : List GffRow) (chromosome : Int)
    (start_position end_position : Int) : Except Unit (List GeneRec) :=
  let target := "Chr" ++ toString chromosome
  (gff.filter (rowMatches target start_position end_position)).mapM toGeneRec

/-! ## QTL.py -/

/-- Function to find local maxima in a dataset: the indices i ranging over
range from 1 to len minus 1 (both neighbours exist) where the value is
strictly greater than both neighbours; values are read positionally as in
the source loop. -/
def find_local_maxima (data : List ℚ) : List Nat :=
  (List.range' 1 (data.length - 2)).filter fun i =>
    data.getD (i - 1) 0 < data.getD i 0 && data.getD (i + 1) 0 < data.getD i 0

/-- Insertion of one value into an ascending list, used to model the sort
underlying the pandas quantile computation. -/
def insertSorted (x : ℚ) : List ℚ → List ℚ
  | [] => [x]
  | y :: ys => if x ≤ y then x :: y :: ys else y :: insertSorted x ys

/-- Ascending sort by repeated insertion. -/
def sortAsc (xs : List ℚ) : List ℚ := xs.foldr insertSorted []

/-- The pandas Series.quantile at 0.95 with the default linear
interpolation: on the ascending sorted values v with n elements, the value
at fractional position h equal to (n - 1) times 19 over 20, interpolated
between the two neighbouring order statistics. An empty series yields NaN
in pandas; the embedding returns 0 there (never reached by the claims). -/
def quantile95 (xs : List ℚ) : ℚ :=
  if xs.isEmpty then 0
  else
    let s := sortAsc xs
    let n := s.length
    let h : ℚ := ((n - 1 : ℕ) : ℚ) * (19 / 20)
    let lo : ℕ := h.floor.toNat
    let a := s.getD lo 0
    let b := s.getD (lo + 1) a
    a + (h - (lo : ℚ)) * (b - a)

/-- One row of the marker table: the index label, the chr and start columns
(numeric), and the remaining columns as text (for instance the marker name
column of the Joosen dataset), which are the only cells a string label can
compare equal to in the pandas isin fallback of get_peak. -/
structure MarkerRow where
  index : String
  chr : Int
  start : Int
  extra : List String
deriving DecidableEq, Repr

/-- A Study holds the LOD score matrix (rows indexed by trait, columns by
marker label) and the marker table, as loaded once by the constructor. -/
structure Study where
  columns : List String
  lodScores : List (String × List ℚ)
  markers : List MarkerRow

/-- QTL.get_region: the chromosome of the marker row, and the fixed window
from start minus 50000 extending 100000 upward. -/
def get_region (m : MarkerRow) : Int × Int × Int :=
  let start_p := m.start - 50000
  (m.chr, start_p, start_p + 100000)

/-- Study.get_peak: if the trait is absent from the LOD index the call
returns None (modelled as none); otherwise the scores are made positive,
a zero threshold defaults to the 95th percentile of the transformed
series, scores at or above the threshold are kept with their labels, and
the marker rows whose index is among those labels are returned (falling
back, when none is, to the rows any of whose cell values equals a label;
numeric cells never equal a string label in pandas isin, so only the text
columns take part). -/
def get_peak (st : Study) (trait : String) (threshold : ℚ) :
    Option (List (String × ℚ) × List MarkerRow) :=
  match st.lodScores.lookup trait with
  | none => none
  | some row =>
      let trait_LOD := row.map (fun x => |x|)
      let th := if threshold = 0 then quantile95 trait_LOD else threshold
      let peak_LOD := (st.columns.zip trait_LOD).filter fun p => th ≤ p.2
      let labels := peak_LOD.map Prod.fst
      let peak_markers := st.markers.filter fun m => labels.contains m.index
      let peak_markers :=
        if peak_markers.isEmpty then
          st.markers.filter fun m => m.extra.any (labels.contains ·)
        else peak_markers
      some (peak_LOD, peak_markers)

/-- The peak indices of get_peak_local_max: local maxima of the transformed
series whose value is at or above the threshold, in the order produced by
find_local_maxima. -/
def local_max_peak_indices (trait_LOD : List ℚ) (th : ℚ) : List Nat :=
  (find_local_maxima trait_LOD).filter fun i => th ≤ trait_LOD.getD i 0

/-- Study.get_peak_local_max: None for a trait absent from the LOD index;
otherwise absolute values are taken, a zero threshold defaults to the 95th
percentile of the transformed series, local maxima at or above the
threshold are selected, and the scores and marker rows at those positions
are returned (iloc positional access; an index beyond the marker table
would raise in pandas and is skipped here, unreachable when the marker
table is at least as long as the score series). -/
def get_peak_local_max (st : Study) (trait : String) (threshold : ℚ) :
    Option (List ℚ × List MarkerRow) :=
  match st.lodScores.lookup trait with
  | none => none
  | some row =>
      let trait_LOD := row.map (fun x => |x|)
      let th := if threshold = 0 then quantile95 trait_LOD else threshold
      let peaks := local_max_peak_indices trait_LOD th
      some (peaks.filterMap (trait_LOD.get? ·),
            peaks.filterMap (st.markers.get? ·))

/-! ## GenesInPath.py -/

/-- A fetch oracle: url to status code and body text. The embedding keeps
the oracle pure (one answer per url), which covers deterministic stubs
such as an always failing server; every embedded operation additionally
threads a counter of the fetch invocations it performed. -/
def Fetch : Type := String → Nat × String

/-- The while loop of get_response, recursing on the remaining attempt
budget (max_retries minus retries): each pass performs one fetch, returns
the body on status 200 and otherwise consumes one retry and a one second
sleep (timing is not modelled). The budget exhausted, None is returned. -/
def get_response_aux (fetch : Fetch) (url : String) :
    Nat → Nat → Option String × Nat
  | 0, k => (none, k)
  | n + 1, k =>
      let r := fetch url
      if r.1 = 200 then (some r.2, k + 1)
      else get_response_aux fetch url n (k + 1)

/-- GenesInPath.get_response with max_retries 3: note that the initial
request itself consumes one of the three loop passes, so an always failing
fetch is invoked three times in total before None is returned. -/
def get_response (fetch : Fetch) (url : String) (k : Nat) :
    Option String × Nat :=
  get_response_aux fetch url 3 k

/-- Parsing one response line of a link query in get_genes_for_pathways:
the second tab column, stripped, is kept when the line has more than one
column. -/
def secondColumns (body : String) : List String :=
  (pySplit (pyStrip body) (Char.ofNat 10)).foldl
    (fun acc line =>
      match pySplit line (Char.ofNat 9) with
      | _ :: c2 :: _ => acc ++ [pyStrip c2]
      | _ => acc) []

/-- Update of a python dict modelled as an association list: an existing
binding for the key is overwritten in place, otherwise the pair is
appended. -/
def updateDict (d : List (String × List String)) (key : String)
    (v : List String) : List (String × List String) :=
  if d.any (fun p => p.1 = key) then
    d.map fun p => if p.1 = key then (key, v) else p
  else d ++ [(key, v)]

/-- GenesInPath.get_genes_for_pathways: pathway ids with one of the two
reserved overview prefixes are skipped; otherwise the ath link url is
queried through get_response, and on success the gene ids of the response
are stored under the pathway id unless the list is empty (the source
inserts then deletes the empty entry, which never materialises here). -/
def get_genes_for_pathways (fetch : Fetch) :
    List String → List (String × List String) → Nat →
    List (String × List String) × Nat
  | [], genes, k => (genes, k)
  | pathway_id :: rest, genes, k =>
      if pyStartsWith pathway_id "path:map011"
          || pyStartsWith pathway_id "path:map012" then
        get_genes_for_pathways fetch rest genes k
      else
        let pathway_ath := "ath" ++ (pyDrop pathway_id 8)
        let pathway_url := "https://rest.kegg.jp/link/ath/" ++ pathway_ath
        match get_response fetch pathway_url k with
        | (none, k1) => get_genes_for_pathways fetch rest genes k1
        | (some body, k1) =>
            let gs := secondColumns body
            if gs.isEmpty then get_genes_for_pathways fetch rest genes k1
            else get_genes_for_pathways fetch rest
              (updateDict genes pathway_id gs) k1

/-! ## GetEnzymesForGene.py -/

/-- The last colon separated part of a string (python split on colon,
index -1). -/
def lastColonPart (s : String) : String :=
  ((pySplit s (Char.ofNat 58)).getLast?).getD ""

/-- GetEnzymesForGene.get_enzymes_for_gene: a single GET request with no
retry; on status 200 the nonblank lines are parsed into enzyme ids (second
tab column, last colon part; a line without a tab would raise an
IndexError in the source and is unreachable for well formed responses),
otherwise None is returned after printing a message. -/
def get_enzymes_for_gene (fetch : Fetch) (gene_id : String) (k : Nat) :
    Option (List String) × Nat :=
  let r := fetch ("http://rest.kegg.jp/link/enzyme/" ++ gene_id)
  if r.1 = 200 then
    (some (((pySplit r.2 (Char.ofNat 10)).filter
        (fun l => !(pyStrip l = ""))).map
      fun l => lastColonPart ((pySplit l (Char.ofNat 9)).getD 1 "")), k + 1)
  else (none, k + 1)

/-! ## Pathways.py -/

/-- A regex word character (the class backslash w over ASCII input). -/
def isWordChar (c : Char) : Bool := c.isAlphanum || c = '_'

/-- Case insensitive character comparison (the IGNORECASE flag). -/
def charIEq (a b : Char) : Bool := a.toLower = b.toLower

/-- Matching the literal compound name case insensitively at the head of a
suffix, returning the remaining characters on success. -/
def matchName : List Char → List Char → Option (List Char)
  | [], rest => some rest
  | _ :: _, [] => none
  | n :: ns, c :: cs => if charIEq n c then matchName ns cs else none

/-- The trailing context of the compound pattern: a word boundary followed
by a negative lookahead for a hyphen, evaluated between the last character
of the name and the remaining input. -/
def boundaryOk (name rest : List Char) : Bool :=
  let lastWord := match name.getLast? with
    | some c => isWordChar c
    | none => true
  match rest with
  | [] => lastWord
  | c :: _ => (lastWord != isWordChar c) && !(c = '-')

/-- Matching the name possibly after consuming an optional stereochemistry
marker (L or D, any case, followed by a hyphen), then the boundary. -/
def matchCore (name s : List Char) : Bool :=
  match matchName name s with
  | some rest => boundaryOk name rest
  | none => false

/-- Whether the compound pattern matches exactly at this position: the
negative lookbehind (previous character, when any, neither a word
character nor a hyphen), then the optional stereochemistry marker and the
name with its trailing boundary. -/
def matchAt (name : List Char) (prev : Option Char) (s : List Char) : Bool :=
  let behindOk := match prev with
    | none => true
    | some c => !(isWordChar c) && !(c = '-')
  behindOk && (matchCore name s ||
    match s with
    | a :: b :: rest =>
        (charIEq a 'L' || charIEq a 'D') && b = '-' && matchCore name rest
    | _ => false)

/-- Scanning every position of the input for a match of the compound
pattern, remembering the previous character for the lookbehind. -/
def searchFrom (name : List Char) : Option Char → List Char → Bool
  | prev, [] => matchAt name prev []
  | prev, c :: cs => matchAt name prev (c :: cs) || searchFrom name (some c) cs

/-- The re.search of the compound pattern of get_kegg_pathways over the
name list column: true when some position matches. -/
def findCompound (compound_name compound_names : String) : Bool :=
  searchFrom compound_name.toList none compound_names.toList

/-- An uppercase hexadecimal digit. -/
def hexDigit (n : Nat) : Char :=
  if n < 10 then Char.ofNat (48 + n) else Char.ofNat (55 + n)

/-- Percent encoding of one character as urllib.parse.quote does with the
default safe slash (ASCII input; multibyte encodings are not exercised by
the metabolite names in the data). -/
def quoteChar (c : Char) : String :=
  if c.isAlphanum || c = '_' || c = '.' || c = '-' || c = '~' || c = '/' then
    String.singleton c
  else
    "%" ++ String.singleton (hexDigit (c.toNat / 16))
      ++ String.singleton (hexDigit (c.toNat % 16))

/-- The urllib.parse.quote call replacing special characters in a compound
name before building the search url. -/
def urlquote (s : String) : String := String.join (s.toList.map quoteChar)

/-- The inner retry while loop of get_kegg_pathways: while attempts remain
and the current response is a failure, fetch again. -/
def keggRetryLoop (fetch : Fetch) (url : String) :
    Nat × String → Nat → Nat → (Nat × String) × Nat
  | r, k, 0 => (r, k)
  | r, k, t + 1 =>
      if r.1 ≠ 200 then keggRetryLoop fetch url (fetch url) (k + 1) t
      else (r, k)

/-- The request pattern of get_kegg_pathways: one initial fetch and, on a
non success status, up to three further attempts (no delay between
attempts in this source file). -/
def keggRetry (fetch : Fetch) (url : String) (k : Nat) :
    (Nat × String) × Nat :=
  let r := fetch url
  if r.1 ≠ 200 then keggRetryLoop fetch url r (k + 1) 3
  else (r, k + 1)

/-- The tuple unpacking of a search result line into compound id and name
list: python raises a ValueError unless the split yields exactly two
parts. -/
def parsePair (line : String) : Except Unit (String × String) :=
  match pySplit line (Char.ofNat 9) with
  | [a, b] => .ok (a, b)
  | _ => .error ()

/-- The reserved overview filter of get_kegg_pathways: the pathway id is
appended to the accumulator unless it carries either reserved prefix. -/
def keepUnlessReserved (acc : List String) (pathway_id : String) :
    List String :=
  if !(pyStartsWith pathway_id "path:map011")
      && !(pyStartsWith pathway_id "path:map012") then acc ++ [pathway_id]
  else acc

/-- Handling one line of a link response in get_kegg_pathways: when the
line contains a tab, its second column is the pathway id, appended to the
accumulator unless it carries either reserved overview prefix. -/
def appendPathwayLine (acc : List String) (r_line : String) : List String :=
  if (pySplit r_line (Char.ofNat 9)).length > 1 then
    keepUnlessReserved acc ((pySplit r_line (Char.ofNat 9)).getD 1 "")
  else acc

/-- Appending the pathway ids of one link response to the accumulator,
keeping only lines containing a tab and discarding ids with either
reserved overview prefix, as the filter in get_kegg_pathways does. -/
def appendPathwayLines (resp_lines : List String) (pathways : List String) :
    List String :=
  resp_lines.foldl appendPathwayLine pathways

/-- The loop of get_kegg_pathways over the compound search result lines:
each line is unpacked, matched against the compound pattern, and on a
match the pathway link url is queried with the retry pattern; a failure
surviving the retries returns the set of pathways collected so far (the
early return in the source), a success appends the filtered pathway ids.
The final and the early result both pass through set, modelled by
dedup. -/
def keggLineLoop (fetch : Fetch) (compound_name : String) :
    List String → List String → Nat → Except Unit (List String × Nat)
  | [], pathways, k => .ok (pathways.dedup, k)
  | line :: rest, pathways, k =>
      match parsePair line with
      | .error e => .error e
      | .ok (compound_id, _compound_names) =>
          if findCompound compound_name _compound_names then
            let pathway_url :=
              "http://rest.kegg.jp/" ++ "link/pathway/" ++ compound_id
            match keggRetry fetch pathway_url k with
            | (r, k1) =>
                if r.1 ≠ 200 then .ok (pathways.dedup, k1)
                else
                  let resp_lines := pySplit (pyStrip r.2) (Char.ofNat 10)
                  keggLineLoop fetch compound_name rest
                    (appendPathwayLines resp_lines pathways) k1
          else keggLineLoop fetch compound_name rest pathways k

/-- Pathways.get_kegg_pathways: search for the compound (with the retry
pattern), give up with an empty list when the search still fails, and
otherwise walk the result lines. The emptiness test on the split lines is
kept from the source although a python split never yields an empty
list. -/
def get_kegg_pathways (fetch : Fetch) (compound_name : String) (k : Nat) :
    Except Unit (List String × Nat) :=
  let base_url := "http://rest.kegg.jp/"
  let search_url := base_url ++ "find/compound/" ++ urlquote compound_name
  match keggRetry fetch search_url k with
  | (r, k1) =>
      if r.1 ≠ 200 then .ok ([], k1)
      else
        let lines := pySplit (pyStrip r.2) (Char.ofNat 10)
        if lines.isEmpty then .ok ([], k1)
        else keggLineLoop fetch compound_name lines [] k1

/-- Extensional equality of python sets represented as lists. -/
def sameSet (a b : List String) : Bool :=
  a.all (b.contains ·) && b.all (a.contains ·)

/-- One round of the batch loop in the Pathways main block: each compound
is resolved through get_kegg_pathways; a nonempty pathway set is recorded
in path_dict, an empty one sends the compound to the failed set. -/
def processRound (fetch : Fetch) :
    List String → List (String × List String) → List String → Nat →
    Except Unit (List (String × List String) × List String × Nat)
  | [], dict, failed, k => .ok (dict, failed, k)
  | c :: rest, dict, failed, k =>
      match get_kegg_pathways fetch c k with
      | .error e => .error e
      | .ok (ps, k1) =>
          if ps.isEmpty then processRound fetch rest dict (failed ++ [c]) k1
          else processRound fetch rest (updateDict dict c ps) failed k1

/-- The state of the batch round loop: the accumulated dictionary, the
failed set of the last round, the consecutive failure counter, the flag
selecting all traits for the first round, the fetch call counter, and the
number of completed rounds. -/
structure LoopState where
  pathDict : List (String × List String)
  failed : List String
  consecutive_failures : Nat
  runAll : Bool
  k : Nat
  rounds : Nat
deriving DecidableEq, Repr

/-- The while loop of the Pathways main block: while the consecutive
failure counter is at most 3, process the pending compounds (all traits in
the first round, the failed set afterwards), increment the counter when
the failed set equals the processed set and reset it otherwise. The fuel
argument bounds the recursion; exhausting it reports an error, and any
fuel large enough for the loop to exit on its own yields the loop
result. -/
def roundLoop (fetch : Fetch) (allTraits : List String) :
    Nat → LoopState → Except Unit LoopState
  | 0, _ => .error ()
  | fuel + 1, s =>
      if s.consecutive_failures ≤ 3 then
        let compounds_to_process := if s.runAll then allTraits else s.failed
        match processRound fetch compounds_to_process s.pathDict [] s.k with
        | .error e => .error e
        | .ok (dict1, failed1, k1) =>
            let cf1 := if sameSet failed1 compounds_to_process then
                s.consecutive_failures + 1
              else 0
            roundLoop fetch allTraits fuel
              { pathDict := dict1, failed := failed1,
                consecutive_failures := cf1, runAll := false, k := k1,
                rounds := s.rounds + 1 }
      else .ok s

/-- The initial state of the batch round loop. -/
def initState : LoopState :=
  { pathDict := [], failed := [], consecutive_failures := 0, runAll := true,
    k := 0, rounds := 0 }

/-! ## main.py, statistical test section -/

/-- One row of the merged counts DataFrame: the compound, its mQTL gene
count, its map (pathway) gene count and its matched gene count
(Gene_Count), as floats coming from the JSON inputs (modelled by
rationals). -/
structure CompRow where
  compound : String
  mQTLGeneCounts : ℚ
  mapGeneCounts : ℚ
  geneCount : ℚ
deriving DecidableEq, Repr

/-- The Total Genes column, the fixed literal subtraction of the source. -/
def totalGenes : ℚ := 27533 - 231

/-- The p value loop of the statistical test: iterating the merged rows in
order, building for each the contingency table a, b, c, d and appending
the Fisher exact p value (the test itself lives in scipy, injected here as
the fisher oracle together with the alternative argument passed in the
source). -/
def fisherLoop (fisher : ℚ → ℚ → ℚ → ℚ → String → ℚ) :
    List CompRow → List ℚ → List ℚ
  | [], p_values => p_values
  | row :: rest, p_values =>
      let a := row.mapGeneCounts
      let b := totalGenes - row.mapGeneCounts
      let c := row.geneCount
      let d := row.mQTLGeneCounts - row.geneCount
      fisherLoop fisher rest (p_values ++ [fisher a b c d "two-sided"])

/-- The adjusted p values of the statistical test: one multipletests call
(the statsmodels implementation, injected as the mt oracle together with
the method argument of the source) over the whole p value column built by
the loop. -/
def adjustedPValues (fisher : ℚ → ℚ → ℚ → ℚ → String → ℚ)
    (mt : List ℚ → String → List ℚ) (rows : List CompRow) : List ℚ :=
  mt (fisherLoop fisher rows []) "fdr_bh"

/-! ## Concrete fixtures used by the witnesses -/

/-- Whether a pathway id carries one of the two reserved overview
prefixes filtered everywhere. -/
def isReservedOverview (p : String) : Bool :=
  pyStartsWith p "path:map011" || pyStartsWith p "path:map012"

/-- A stub server that always fails. -/
def failFetch : Fetch := fun _ => (404, "")

/-- A stub server on which the compound search for Raffinose succeeds with
two matching compound ids, the pathway link for the first id succeeds with
one regular and one overview pathway, and every other url (in particular
the pathway link for the second id) fails. -/
def partialFetch : Fetch := fun url =>
  if url = "http://rest.kegg.jp/find/compound/Raffinose" then
    (200, "C00492\tRaffinose\nC99999\tRaffinose")
  else if url = "http://rest.kegg.jp/link/pathway/C00492" then
    (200, "cpd:C00492\tpath:map00052\ncpd:C00492\tpath:map01100")
  else (404, "")

/-- A stub server on which the ath link for the pathway map00052
succeeds with two gene lines and every other url fails. -/
def geneFetch : Fetch := fun url =>
  if url = "https://rest.kegg.jp/link/ath/ath00052" then
    (200, "path:ath00052\tath:AT3G52340\npath:ath00052\tath:AT1G12240")
  else (404, "")

/-- A small annotation table on chromosome 3: one gene with only its end in
the window from 50000 to 150000, one gene with only its start in it, and
one gene spanning the whole window with neither boundary inside it. -/
def gffW : List GffRow :=
  [{ chr := "Chr3", featureType := "gene", start := 40000, «end» := 60000,
     attributes := [("ID", "AT3G00001")] },
   { chr := "Chr3", featureType := "gene", start := 60001, «end» := 260000,
     attributes := [("ID", "AT3G00002"), ("Name", "GENE2")] },
   { chr := "Chr3", featureType := "gene", start := 10000, «end» := 200000,
     attributes := [("ID", "AT3G00003")] }]

/-- The same table with the ID attribute of the first matching gene
removed. -/
def gffNoId : List GffRow :=
  [{ chr := "Chr3", featureType := "gene", start := 40000, «end» := 60000,
     attributes := [("Name", "GENE1")] }]

/-- A small study with one trait over seven markers, the score sequence of
the specification examples. -/
def stW : Study :=
  { columns := ["m1", "m2", "m3", "m4", "m5", "m6", "m7"],
    lodScores := [("trait1", [1, 5, 2, 9, 3, 7, 1])],
    markers :=
      [⟨"m1", 1, 100, []⟩, ⟨"m2", 1, 200, []⟩, ⟨"m3", 1, 300, []⟩,
       ⟨"m4", 1, 400, []⟩, ⟨"m5", 1, 500, []⟩, ⟨"m6", 1, 600, []⟩,
       ⟨"m7", 2, 700, []⟩] }

/-! ## Helper lemmas -/

/-- Sequencing a list of Except computations succeeds exactly on the lists
whose members are the successes of the inputs, in order; membership in the
output is witnessed by a successful input. -/
theorem mapM_ok_mem {α β : Type} (f : α → Except Unit β) :
    ∀ (xs : List α) (l : List β), xs.mapM f = .ok l →
      ∀ y, y ∈ l ↔ ∃ x ∈ xs, f x = .ok y := by
  intro xs
  induction xs with
  | nil => intro l h y; simp only [List.mapM_nil, pure, Except.pure] at h
           cases h; simp
  | cons x xs ih =>
      intro l h y
      simp only [List.mapM_cons] at h
      cases hx : f x with
      | error e => rw [hx] at h; simp [Bind.bind, Except.bind] at h
      | ok b =>
          rw [hx] at h
          cases hxs : xs.mapM f with
          | error e =>
              rw [hxs] at h; simp [Bind.bind, Except.bind] at h
          | ok bs =>
              rw [hxs] at h
              simp only [Bind.bind, Except.bind, pure, Except.pure] at h
              cases h
              constructor
              · intro hy
                rcases List.mem_cons.mp hy with hy | hy
                · exact ⟨x, List.mem_cons_self x xs, hy ▸ hx⟩
                · rcases (ih bs hxs y).mp hy with ⟨x1, hx1, hfx1⟩
                  exact ⟨x1, List.mem_cons_of_mem x hx1, hfx1⟩
              · rintro ⟨x1, hx1, hfx1⟩
                rcases List.mem_cons.mp hx1 with rfl | hx1
                · rw [hx] at hfx1; cases hfx1; exact List.mem_cons_self _ _
                · exact List.mem_cons_of_mem _ ((ih bs hxs y).mpr ⟨x1, hx1, hfx1⟩)

/-- Sequencing a list of Except computations fails as soon as some member
fails. -/
theorem mapM_error_of_mem {α β : Type} (f : α → Except Unit β) :
    ∀ (xs : List α), (∃ x ∈ xs, f x = .error ()) → xs.mapM f = .error () := by
  intro xs
  induction xs with
  | nil => rintro ⟨x, hx, _⟩; cases hx
  | cons x xs ih =>
      rintro ⟨x1, hx1, hfx1⟩
      simp only [List.mapM_cons]
      rcases List.mem_cons.mp hx1 with rfl | hx1
      · rw [hfx1]; rfl
      · cases hx : f x with
        | error e => cases e; rfl
        | ok b =>
            rw [ih ⟨x1, hx1, hfx1⟩]
            rfl

/-- The boolean selection condition of genes_in_region, read as a
proposition. -/
theorem rowMatches_eq_true_iff (target : String) (s e : Int) (r : GffRow) :
    rowMatches target s e r = true ↔
      r.featureType = "gene" ∧ r.chr = target ∧
        ((s ≤ r.start ∧ r.start ≤ e) ∨ (s ≤ r.«end» ∧ r.«end» ≤ e)) := by
  simp [rowMatches, and_assoc]

/-- A successful record conversion preserves the coordinate columns. -/
theorem toGeneRec_coords (r : GffRow) (g : GeneRec)
    (h : toGeneRec r = .ok g) : g.start = r.start ∧ g.«end» = r.«end» := by
  unfold toGeneRec at h
  cases hid : attrGet r.attributes "ID" with
  | none => rw [hid] at h; cases h
  | some i => rw [hid] at h; cases h; exact ⟨rfl, rfl⟩

/-! ## Claim theorems -/

/-- C1: genes_in_region returns exactly the gene features on the queried
chromosome whose start lies in the closed query interval or whose end
does; in particular a gene whose start is below the interval and whose end
is above it (fully spanning, no boundary inside) is not returned. -/
theorem genes_in_region_boundary_overlap
    (gff : List GffRow) (chromosome s e : Int) (l : List GeneRec)
    (h : genes_in_region gff chromosome s e = .ok l) :
    (∀ g : GeneRec, g ∈ l ↔ ∃ r ∈ gff,
        r.featureType = "gene" ∧ r.chr = "Chr" ++ toString chromosome ∧
        ((s ≤ r.start ∧ r.start ≤ e) ∨ (s ≤ r.«end» ∧ r.«end» ≤ e)) ∧
        toGeneRec r = .ok g)
    ∧ ∀ r ∈ gff, r.start < s → e < r.«end» →
        ∀ g : GeneRec, toGeneRec r = .ok g → g ∉ l := by
  unfold genes_in_region at h
  have hmem := mapM_ok_mem toGeneRec _ l h
  constructor
  · intro g
    rw [hmem g]
    constructor
    · rintro ⟨r, hr, hg⟩
      rw [List.mem_filter] at hr
      have hprop := (rowMatches_eq_true_iff _ _ _ r).mp hr.2
      exact ⟨r, hr.1, hprop.1, hprop.2.1, hprop.2.2, hg⟩
    · rintro ⟨r, hr, h1, h2, h3, hg⟩
      exact ⟨r, List.mem_filter.mpr
        ⟨hr, (rowMatches_eq_true_iff _ _ _ r).mpr ⟨h1, h2, h3⟩⟩, hg⟩
  · intro r hr hs he g hg hcontra
    rcases (hmem g).mp hcontra with ⟨r2, hr2, hg2⟩
    rw [List.mem_filter] at hr2
    have hprop := (rowMatches_eq_true_iff _ _ _ r2).mp hr2.2
    have c1 := toGeneRec_coords r g hg
    have c2 := toGeneRec_coords r2 g hg2
    rcases hprop.2.2 with ⟨ha, hb⟩ | ⟨ha, hb⟩ <;> omega

/-- C1 witness: on a concrete table over chromosome 3 with the window from
50000 to 150000, the gene ending inside and the gene starting inside are
returned, and the spanning gene from 10000 to 200000 is not. -/
theorem genes_in_region_boundary_overlap_witness :
    genes_in_region gffW 3 50000 150000 =
      .ok [{ gene_id := "ath:AT3G00001", gene_name := none, chr := "Chr3",
             start := 40000, «end» := 60000 },
           { gene_id := "ath:AT3G00002", gene_name := some "GENE2",
             chr := "Chr3", start := 60001, «end» := 260000 }]
    ∧ ({ gene_id := "ath:AT3G00003", gene_name := none, chr := "Chr3",
         start := 10000, «end» := 200000 } : GeneRec) ∉
        [({ gene_id := "ath:AT3G00001", gene_name := none, chr := "Chr3",
            start := 40000, «end» := 60000 } : GeneRec),
         { gene_id := "ath:AT3G00002", gene_name := some "GENE2",
           chr := "Chr3", start := 60001, «end» := 260000 }] :=
  ⟨by rfl,
   (genes_in_region_boundary_overlap gffW 3 50000 150000 _ (by rfl)).2
     { chr := "Chr3", featureType := "gene", start := 10000,
       «end» := 200000, attributes := [("ID", "AT3G00003")] }
     (by decide) (by decide) (by decide) _ (by rfl)⟩

/-- C8: a gene feature selected by the region query whose attribute column
lacks an ID attribute makes genes_in_region raise (the whole call aborts
with an error) instead of silently substituting a placeholder id. -/
theorem genes_in_region_missing_id_aborts
    (gff : List GffRow) (chromosome s e : Int)
    (h : ∃ r ∈ gff, rowMatches ("Chr" ++ toString chromosome) s e r = true ∧
        attrGet r.attributes "ID" = none) :
    genes_in_region gff chromosome s e = .error () := by
  rcases h with ⟨r, hr, hm, hid⟩
  unfold genes_in_region
  apply mapM_error_of_mem
  refine ⟨r, List.mem_filter.mpr ⟨hr, hm⟩, ?_⟩
  unfold toGeneRec
  rw [hid]

/-- C8 witness: a matching gene row without an ID attribute makes the
concrete call return an error. -/
theorem genes_in_region_missing_id_aborts_witness :
    (∃ r ∈ gffNoId, rowMatches ("Chr" ++ toString (3 : Int)) 50000 150000 r
        = true ∧ attrGet r.attributes "ID" = none)
    ∧ genes_in_region gffNoId 3 50000 150000 = .error () :=
  ⟨by decide, genes_in_region_missing_id_aborts gffNoId 3 50000 150000
    (by decide)⟩

/-- The retry while loop of get_kegg_pathways with a deterministically
failing url spends its whole budget and hands back the failing response. -/
theorem keggRetryLoop_fail (fetch : Fetch) (url : String)
    (h : (fetch url).1 ≠ 200) :
    ∀ t k, keggRetryLoop fetch url (fetch url) k t = (fetch url, k + t) := by
  intro t
  induction t with
  | zero => intro k; rfl
  | succ t ih =>
      intro k
      show (if (fetch url).1 ≠ 200 then _ else _) = _
      rw [if_pos h, ih (k + 1)]
      congr 1
      omega

/-- The request pattern of get_kegg_pathways performs exactly four fetches
on a deterministically failing url. -/
theorem keggRetry_fail (fetch : Fetch) (url : String) (k : Nat)
    (h : (fetch url).1 ≠ 200) :
    keggRetry fetch url k = (fetch url, k + 4) := by
  unfold keggRetry
  rw [if_pos h, keggRetryLoop_fail fetch url h 3 (k + 1)]

/-- GenesInPath.get_response performs exactly three fetches on a
deterministically failing url and returns None. -/
theorem get_response_fail (fetch : Fetch) (url : String) (k : Nat)
    (h : ¬((fetch url).1 = 200)) :
    get_response fetch url k = (none, k + 3) := by
  show get_response_aux fetch url 3 k = _
  unfold get_response_aux
  rw [if_neg h]
  unfold get_response_aux
  rw [if_neg h]
  unfold get_response_aux
  rw [if_neg h]
  rfl

/-- C2 counterexample: the claim that every remote lookup invokes fetch
exactly four times on an always failing stub is false: the gene to enzyme
lookup invokes it once and the pathway to gene helper three times. -/
theorem every_lookup_four_attempts_counterexample :
    (get_enzymes_for_gene failFetch "ath:AT1G06290" 0).2 = 1
    ∧ (get_response failFetch "https://rest.kegg.jp/link/ath/ath00052" 0).2
        = 3
    ∧ (get_enzymes_for_gene failFetch "ath:AT1G06290" 0).2 ≠ 4
    ∧ (get_response failFetch "https://rest.kegg.jp/link/ath/ath00052" 0).2
        ≠ 4 := by
  refine ⟨rfl, rfl, ?_, ?_⟩ <;> decide

/-- C2 amended: with an always failing fetch, the compound search of
get_kegg_pathways invokes fetch exactly four times (one initial request
plus three retries) and reports failure with an empty set, the pathway to
gene helper get_response invokes it exactly three times (the initial
request consumes one of the three budgeted passes) and returns None, and
the gene to enzyme lookup invokes it exactly once (no retry) and returns
None; none of the three raises. -/
theorem lookup_failure_attempt_counts
    (fetch : Fetch) (hfail : ∀ url, (fetch url).1 ≠ 200)
    (url gene_id compound_name : String) (k : Nat) :
    get_response fetch url k = (none, k + 3)
    ∧ get_enzymes_for_gene fetch gene_id k = (none, k + 1)
    ∧ keggRetry fetch url k = (fetch url, k + 4)
    ∧ get_kegg_pathways fetch compound_name k = .ok ([], k + 4) := by
  refine ⟨get_response_fail fetch url k (hfail url), ?_, ?_, ?_⟩
  · unfold get_enzymes_for_gene
    rw [if_neg (hfail _)]
  · exact keggRetry_fail fetch url k (hfail url)
  · simp only [get_kegg_pathways]
    rw [keggRetry_fail fetch _ k (hfail _), if_pos (hfail _)]

/-- C2 witness: the amended attempt counts at the always failing stub. -/
theorem lookup_failure_attempt_counts_witness :
    (∀ url, (failFetch url).1 ≠ 200)
    ∧ (get_response failFetch "http://u" 0 = (none, 3)
        ∧ get_enzymes_for_gene failFetch "ath:AT1G06290" 0 = (none, 1)
        ∧ keggRetry failFetch "http://u" 0 = (failFetch "http://u", 4)
        ∧ get_kegg_pathways failFetch "Alanine" 0 = .ok ([], 4)) :=
  have h : ∀ url, (failFetch url).1 ≠ 200 :=
    fun _ => (by decide : (404 : Nat) ≠ 200)
  ⟨h, lookup_failure_attempt_counts failFetch h "http://u" "ath:AT1G06290"
    "Alanine" 0⟩

/-- C3: with an always failing stub and a single pending compound, the
batch round loop of the Pathways main block runs four (not three)
consecutive rounds with an unchanged, nonempty retry set before
terminating because the loop guard keeps iterating while the consecutive
failure counter is still at most 3; the final failed set holds the
compound, and the loop indeed needs five guard evaluations (four
processing rounds plus the exiting check), as too little fuel shows. -/
theorem round_loop_unchanged_retry_set_bound :
    roundLoop failFetch ["Sorbitol"] 5 initState =
      .ok { pathDict := [], failed := ["Sorbitol"],
            consecutive_failures := 4, runAll := false, k := 16,
            rounds := 4 }
    ∧ roundLoop failFetch ["Sorbitol"] 4 initState = .error () :=
  ⟨rfl, rfl⟩

/-- One response line never contributes a pathway id with a reserved
overview prefix: a member of the extended accumulator was already there or
is unreserved. -/
theorem keepUnlessReserved_mem (acc : List String) (pathway_id p : String)
    (hp : p ∈ keepUnlessReserved acc pathway_id) :
    p ∈ acc ∨ isReservedOverview p = false := by
  unfold keepUnlessReserved at hp
  split at hp
  case isTrue hcond =>
    rcases List.mem_append.mp hp with h | h
    · exact Or.inl h
    · right
      rw [List.mem_singleton.mp h]
      rcases Bool.and_eq_true_iff.mp hcond with ⟨h1, h2⟩
      simp only [Bool.not_eq_true'] at h1 h2
      simp [isReservedOverview, h1, h2]
  case isFalse => exact Or.inl hp

/-- One response line never contributes a pathway id with a reserved
overview prefix: a member of the extended accumulator was already there or
is unreserved. -/
theorem appendPathwayLine_mem (acc : List String) (r_line p : String)
    (hp : p ∈ appendPathwayLine acc r_line) :
    p ∈ acc ∨ isReservedOverview p = false := by
  unfold appendPathwayLine at hp
  split at hp
  · exact keepUnlessReserved_mem acc _ p hp
  · exact Or.inl hp

/-- Folding a whole link response keeps the accumulator invariant of
appendPathwayLine. -/
theorem appendPathwayLines_mem :
    ∀ (resp_lines acc : List String) (p : String),
      p ∈ appendPathwayLines resp_lines acc →
      p ∈ acc ∨ isReservedOverview p = false := by
  intro resp_lines
  induction resp_lines with
  | nil => intro acc p hp; exact Or.inl hp
  | cons line rest ih =>
      intro acc p hp
      have hp2 : p ∈ appendPathwayLines rest (appendPathwayLine acc line) :=
        hp
      rcases ih _ p hp2 with h | h
      · exact appendPathwayLine_mem acc line p h
      · exact Or.inr h

/-- The line loop of get_kegg_pathways preserves absence of reserved
overview ids in the accumulator, on the normal and on the early return. -/
theorem keggLineLoop_no_reserved (fetch : Fetch) (compound_name : String) :
    ∀ (lines pathways : List String) (k : Nat) (res : List String × Nat),
      (∀ p ∈ pathways, isReservedOverview p = false) →
      keggLineLoop fetch compound_name lines pathways k = .ok res →
      ∀ p ∈ res.1, isReservedOverview p = false := by
  intro lines
  induction lines with
  | nil =>
      intro pathways k res hinv h p hp
      cases h
      exact hinv p (List.mem_dedup.mp hp)
  | cons line rest ih =>
      intro pathways k res hinv h p hp
      cases hpp : parsePair line with
      | error e => simp only [keggLineLoop, hpp] at h; cases h
      | ok pr =>
          obtain ⟨compound_id, compound_names⟩ := pr
          simp only [keggLineLoop, hpp] at h
          split at h
          · rcases hkr : keggRetry fetch
                ("http://rest.kegg.jp/" ++ "link/pathway/" ++ compound_id) k
              with ⟨r, k1⟩
            simp only [hkr] at h
            split at h
            · cases h
              exact hinv p (List.mem_dedup.mp hp)
            · refine ih _ _ _ (fun q hq => ?_) h p hp
              rcases appendPathwayLines_mem _ _ q hq with h2 | h2
              · exact hinv q h2
              · exact h2
          · exact ih _ _ _ hinv h p hp

/-- An entry of the dict after an update is an old entry or carries the
updated key. -/
theorem updateDict_mem (d : List (String × List String)) (key : String)
    (v : List String) (entry : String × List String)
    (h : entry ∈ updateDict d key v) : entry ∈ d ∨ entry.1 = key := by
  unfold updateDict at h
  split at h
  · rcases List.mem_map.mp h with ⟨q, hq, hfq⟩
    by_cases hk : q.1 = key
    · right; rw [← hfq, if_pos hk]
    · left; rw [← hfq, if_neg hk]; exact hq
  · rcases List.mem_append.mp h with h | h
    · exact Or.inl h
    · right; rw [List.mem_singleton.mp h]

/-- The pathway to genes loop only ever adds entries under keys it did not
skip, hence unreserved ones. -/
theorem get_genes_keys (fetch : Fetch) :
    ∀ (pl : List String) (genes : List (String × List String)) (k : Nat)
      (entry : String × List String),
      entry ∈ (get_genes_for_pathways fetch pl genes k).1 →
      entry ∈ genes ∨ isReservedOverview entry.1 = false := by
  intro pl
  induction pl with
  | nil => intro genes k entry h; exact Or.inl h
  | cons pid rest ih =>
      intro genes k entry h
      simp only [get_genes_for_pathways] at h
      split at h
      case isTrue => exact ih genes k entry h
      case isFalse hskip =>
        have hres : isReservedOverview pid = false := by
          simpa [isReservedOverview] using hskip
        rcases hcall : get_response fetch
            ("https://rest.kegg.jp/link/ath/" ++ ("ath" ++ pyDrop pid 8)) k
          with ⟨_ | body, k1⟩
        · simp only [hcall] at h
          exact ih genes k1 entry h
        · simp only [hcall] at h
          split at h
          · exact ih genes k1 entry h
          · rcases ih _ k1 entry h with h2 | h2
            · rcases updateDict_mem genes pid _ entry h2 with h3 | h3
              · exact Or.inl h3
              · right; rw [h3]; exact hres
            · exact Or.inr h2

/-- C6: no operation returning pathway ids ever includes an id with either
reserved overview prefix: every pathway id in an ok result of
get_kegg_pathways, and every pathway key of get_genes_for_pathways, is
unreserved, for every fetch oracle and every input. -/
theorem reserved_overview_never_returned :
    (∀ (fetch : Fetch) (compound_name : String) (k : Nat)
        (res : List String × Nat),
        get_kegg_pathways fetch compound_name k = .ok res →
        ∀ p ∈ res.1, isReservedOverview p = false)
    ∧ (∀ (fetch : Fetch) (pathway_list : List String) (k : Nat)
        (entry : String × List String),
        entry ∈ (get_genes_for_pathways fetch pathway_list [] k).1 →
        isReservedOverview entry.1 = false) := by
  constructor
  · intro fetch compound_name k res h p hp
    simp only [get_kegg_pathways] at h
    rcases hkr : keggRetry fetch
        ("http://rest.kegg.jp/" ++ "find/compound/" ++ urlquote compound_name)
        k with ⟨r, k1⟩
    rw [hkr] at h
    split at h
    · cases h; cases hp
    · split at h
      · cases h; cases hp
      · exact keggLineLoop_no_reserved fetch compound_name _ [] k1 res
          (fun q hq => absurd hq (List.not_mem_nil q)) h p hp
  · intro fetch pathway_list k entry h
    rcases get_genes_keys fetch pathway_list [] k entry h with h2 | h2
    · cases h2
    · exact h2

/-- C6 witness: a concrete compound resolution returning one unreserved
pathway (the overview id in the response was dropped), and a concrete
pathway to genes call, both covered by the invariant. -/
theorem reserved_overview_never_returned_witness :
    (get_kegg_pathways partialFetch "Raffinose" 0 = .ok (["path:map00052"], 6)
      ∧ isReservedOverview "path:map00052" = false)
    ∧ ("path:map00052", ["ath:AT3G52340", "ath:AT1G12240"]) ∈
        (get_genes_for_pathways geneFetch ["path:map00052", "path:map01100"]
          [] 0).1 :=
  ⟨⟨by rfl,
    reserved_overview_never_returned.1 partialFetch "Raffinose" 0
      (["path:map00052"], 6) (by rfl) "path:map00052" (by simp)⟩,
   by decide⟩

/-- C10: when a pathway link lookup still fails after its retries, the
line loop of get_kegg_pathways returns the pathways collected so far as a
normal result (the early return), not a failure signal; and the batch
round loop records any compound with a nonempty resolved set in the path
dictionary instead of the retry set, so a partially resolved compound with
at least one collected pathway is treated exactly like a fully resolved
one. -/
theorem partial_pathway_failure_treated_as_success (fetch : Fetch) :
    (∀ (compound_name line : String) (rest pathways : List String) (k : Nat)
        (compound_id compound_names : String),
        parsePair line = .ok (compound_id, compound_names) →
        findCompound compound_name compound_names = true →
        (fetch ("http://rest.kegg.jp/" ++ "link/pathway/" ++ compound_id)).1
          ≠ 200 →
        keggLineLoop fetch compound_name (line :: rest) pathways k =
          .ok (pathways.dedup, k + 4))
    ∧ (∀ (c : String) (rest : List String)
        (dict : List (String × List String)) (failed : List String)
        (k k1 : Nat) (ps : List String),
        get_kegg_pathways fetch c k = .ok (ps, k1) → ps ≠ [] →
        processRound fetch (c :: rest) dict failed k =
          processRound fetch rest (updateDict dict c ps) failed k1) := by
  constructor
  · intro compound_name line rest pathways k compound_id compound_names hpp
      hfind hfail
    simp only [keggLineLoop, hpp, hfind, if_true,
      keggRetry_fail fetch _ k hfail]
    rw [if_pos hfail]
  · intro c rest dict failed k k1 ps h hne
    have hemp : ps.isEmpty = false := by
      cases ps with
      | nil => exact absurd rfl hne
      | cons a as => rfl
    simp only [processRound, h, hemp]
    rfl

/-- C10 witness: on the stub where the search finds two matching compound
ids and only the first link resolves, the line loop early-returns the one
collected pathway, the whole lookup reports it as a normal nonempty
result, and the round loop books the compound as resolved. -/
theorem partial_pathway_failure_treated_as_success_witness :
    (parsePair "C99999\tRaffinose" = .ok ("C99999", "Raffinose")
      ∧ findCompound "Raffinose" "Raffinose" = true
      ∧ (partialFetch
          ("http://rest.kegg.jp/" ++ "link/pathway/" ++ "C99999")).1 ≠ 200
      ∧ keggLineLoop partialFetch "Raffinose" ["C99999\tRaffinose"]
          ["path:map00052"] 2 = .ok (["path:map00052"], 6))
    ∧ (get_kegg_pathways partialFetch "Raffinose" 0
        = .ok (["path:map00052"], 6)
      ∧ (["path:map00052"] : List String) ≠ []
      ∧ processRound partialFetch ["Raffinose"] [] [] 0 =
          processRound partialFetch []
            (updateDict [] "Raffinose" ["path:map00052"]) [] 6) := by
  have h1 := (partial_pathway_failure_treated_as_success partialFetch).1
    "Raffinose" "C99999\tRaffinose" [] ["path:map00052"] 2 "C99999"
    "Raffinose" (by rfl) (by decide) (by decide)
  have h2 := (partial_pathway_failure_treated_as_success partialFetch).2
    "Raffinose" [] [] [] 0 6 ["path:map00052"] (by rfl) (by decide)
  exact ⟨⟨by rfl, by decide, by decide, h1⟩, ⟨by rfl, by decide, h2⟩⟩

/-- Reading the absolute value series positionally below its length gives
the absolute value of the underlying entry. -/
theorem abs_map_getD (row : List ℚ) (j : Nat) (hj : j < row.length) :
    (row.map (fun x => |x|)).getD j 0 = |row.get ⟨j, hj⟩| := by
  rw [List.getD_eq_getElem?_getD, List.getElem?_map,
    List.getElem?_eq_getElem hj]
  rfl

/-- No index of a monotone series (in either direction) is a strict local
maximum of its absolute values. -/
theorem no_abs_local_max_of_monotone (row : List ℚ) (j : Nat)
    (hj2 : j + 2 < row.length)
    (hmono : List.Chain' (· ≤ ·) row ∨ List.Chain' (· ≥ ·) row)
    (hup : (row.map (fun x => |x|)).getD j 0
        < (row.map (fun x => |x|)).getD (j + 1) 0)
    (hdown : (row.map (fun x => |x|)).getD (j + 2) 0
        < (row.map (fun x => |x|)).getD (j + 1) 0) : False := by
  have h0 : j < row.length := by omega
  have h1 : j + 1 < row.length := by omega
  rw [abs_map_getD row j h0] at hup
  rw [abs_map_getD row (j + 1) h1] at hup hdown
  rw [abs_map_getD row (j + 2) hj2] at hdown
  set a := row.get ⟨j, h0⟩ with ha
  set b := row.get ⟨j + 1, h1⟩ with hb
  set c := row.get ⟨j + 2, hj2⟩ with hc
  rcases hmono with hm | hm
  · have hab : a ≤ b := by
      have := List.chain'_iff_get.mp hm j (by omega)
      simpa using this
    have hbc : b ≤ c := by
      have := List.chain'_iff_get.mp hm (j + 1) (by omega)
      simpa using this
    rcases le_or_lt b 0 with hb0 | hb0
    · rw [abs_of_nonpos (le_trans hab hb0), abs_of_nonpos hb0] at hup
      linarith
    · rw [abs_of_pos hb0, abs_of_pos (lt_of_lt_of_le hb0 hbc)] at hdown
      linarith
  · have hab : b ≤ a := by
      have := List.chain'_iff_get.mp hm j (by omega)
      simpa using this
    have hbc : c ≤ b := by
      have := List.chain'_iff_get.mp hm (j + 1) (by omega)
      simpa using this
    rcases le_or_lt b 0 with hb0 | hb0
    · rw [abs_of_nonpos (le_trans hbc hb0), abs_of_nonpos hb0] at hdown
      linarith
    · rw [abs_of_pos hb0, abs_of_pos (lt_of_lt_of_le hb0 hab)] at hup
      linarith

/-- C4: for a trait of the study, get_peak_local_max first takes absolute
values, then returns the scores and markers at exactly those indices i
with both neighbours present where the transformed score strictly exceeds
both neighbours and is at least the effective threshold (the argument, or
its 95th percentile default when the argument is zero), in ascending index
order; on a monotone score series (in either direction) there is no peak
at all. -/
theorem get_peak_local_max_characterization
    (st : Study) (trait : String) (th : ℚ) (row tl : List ℚ) (thEff : ℚ)
    (pk : List Nat)
    (h : st.lodScores.lookup trait = some row)
    (htl : tl = row.map (fun x => |x|))
    (hthEff : thEff = if th = 0 then quantile95 tl else th)
    (hpk : pk = local_max_peak_indices tl thEff) :
    get_peak_local_max st trait th =
      some (pk.filterMap (tl.get? ·), pk.filterMap (st.markers.get? ·))
    ∧ (∀ i, i ∈ pk ↔ 1 ≤ i ∧ i + 1 < tl.length ∧
        tl.getD (i - 1) 0 < tl.getD i 0 ∧ tl.getD (i + 1) 0 < tl.getD i 0 ∧
        thEff ≤ tl.getD i 0)
    ∧ List.Sorted (· < ·) pk
    ∧ ((List.Chain' (· ≤ ·) row ∨ List.Chain' (· ≥ ·) row) → pk = []) := by
  subst htl hthEff hpk
  refine ⟨?_, ?_, ?_, ?_⟩
  · simp only [get_peak_local_max, h]
  · intro i
    unfold local_max_peak_indices find_local_maxima
    rw [List.mem_filter, List.mem_filter, List.mem_range'_1]
    simp only [Bool.and_eq_true, decide_eq_true_eq]
    constructor
    · rintro ⟨⟨⟨h1, h2⟩, h3, h4⟩, h5⟩
      exact ⟨h1, by omega, h3, h4, h5⟩
    · rintro ⟨h1, h2, h3, h4, h5⟩
      exact ⟨⟨⟨h1, by omega⟩, h3, h4⟩, h5⟩
  · exact List.Pairwise.filter _
      (List.Pairwise.filter _ (List.pairwise_lt_range' 1 _ 1))
  · intro hmono
    rw [List.eq_nil_iff_forall_not_mem]
    intro i hi
    unfold local_max_peak_indices find_local_maxima at hi
    rw [List.mem_filter, List.mem_filter, List.mem_range'_1] at hi
    simp only [Bool.and_eq_true, decide_eq_true_eq] at hi
    obtain ⟨⟨⟨h1, h2⟩, h3, h4⟩, _⟩ := hi
    obtain ⟨j, rfl⟩ : ∃ j, i = j + 1 := ⟨i - 1, by omega⟩
    have hlen : j + 2 < row.length := by
      have := List.length_map row (fun x => |x|)
      omega
    refine no_abs_local_max_of_monotone row j hlen hmono ?_ ?_
    · simpa using h3
    · simpa using h4

/-- C4 witness: on the concrete study and threshold 4, the peaks of the
series are the values 5, 9 and 7 with their markers, in ascending index
order. -/
theorem get_peak_local_max_characterization_witness :
    stW.lodScores.lookup "trait1" = some [1, 5, 2, 9, 3, 7, 1]
    ∧ get_peak_local_max stW "trait1" 4 =
        some ([5, 9, 7],
          [⟨"m2", 1, 200, []⟩, ⟨"m4", 1, 400, []⟩, ⟨"m6", 1, 600, []⟩]) := by
  constructor
  · rfl
  · have h := (get_peak_local_max_characterization stW "trait1" 4
      [1, 5, 2, 9, 3, 7, 1] _ _ _ rfl rfl rfl rfl).1
    rw [h]
    rfl

/-- C5: for a trait present in the study, calling get_peak or
get_peak_local_max with the absent-or-zero threshold behaves exactly as
calling it with the 95th percentile of the absolute value score series of
that trait: the adaptive default replaces the literal zero. -/
theorem threshold_defaults_to_95th_percentile
    (st : Study) (trait : String) (row : List ℚ)
    (h : st.lodScores.lookup trait = some row) :
    get_peak st trait 0 =
      get_peak st trait (quantile95 (row.map fun x => |x|))
    ∧ get_peak_local_max st trait 0 =
        get_peak_local_max st trait (quantile95 (row.map fun x => |x|)) := by
  constructor
  · simp only [get_peak, h, ite_self, eq_self_iff_true, if_true]
  · simp only [get_peak_local_max, h, ite_self, eq_self_iff_true, if_true]

/-- C5 witness: the zero-threshold call on the concrete study agrees with
the explicit 95th percentile call. -/
theorem threshold_defaults_to_95th_percentile_witness :
    stW.lodScores.lookup "trait1" = some [1, 5, 2, 9, 3, 7, 1]
    ∧ get_peak stW "trait1" 0 =
        get_peak stW "trait1"
          (quantile95 (([1, 5, 2, 9, 3, 7, 1] : List ℚ).map fun x => |x|))
    ∧ get_peak_local_max stW "trait1" 0 =
        get_peak_local_max stW "trait1"
          (quantile95 (([1, 5, 2, 9, 3, 7, 1] : List ℚ).map fun x => |x|)) :=
  ⟨by rfl,
   (threshold_defaults_to_95th_percentile stW "trait1" _ (by rfl)).1,
   (threshold_defaults_to_95th_percentile stW "trait1" _ (by rfl)).2⟩

/-- C9: for a trait name absent from the LOD score index, get_peak and
get_peak_local_max return the None pair (modelled as none), not an empty
container and not an exception, while a present trait always yields a some
result, so callers can tell the two cases apart. -/
theorem unknown_trait_returns_none (st : Study) (trait : String) (th : ℚ) :
    (st.lodScores.lookup trait = none →
      get_peak st trait th = none ∧ get_peak_local_max st trait th = none)
    ∧ (∀ row, st.lodScores.lookup trait = some row →
      (get_peak st trait th).isSome = true
        ∧ (get_peak_local_max st trait th).isSome = true) := by
  constructor
  · intro h
    constructor
    · simp only [get_peak, h]
    · simp only [get_peak_local_max, h]
  · intro row h
    constructor
    · simp only [get_peak, h, Option.isSome_some]
    · simp only [get_peak_local_max, h, Option.isSome_some]

/-- C9 witness: an absent trait yields none from both peak functions on
the concrete study. -/
theorem unknown_trait_returns_none_witness :
    stW.lodScores.lookup "absent" = none
    ∧ (get_peak stW "absent" 3 = none
        ∧ get_peak_local_max stW "absent" 3 = none) :=
  ⟨by rfl, (unknown_trait_returns_none stW "absent" 3).1 (by rfl)⟩

/-- The p value loop of the statistical test appends, in row order, one
Fisher p value per row to whatever accumulator it starts from. -/
theorem fisherLoop_eq_append (fisher : ℚ → ℚ → ℚ → ℚ → String → ℚ) :
    ∀ (rows : List CompRow) (acc : List ℚ),
      fisherLoop fisher rows acc = acc ++ rows.map (fun row =>
        fisher row.mapGeneCounts (totalGenes - row.mapGeneCounts)
          row.geneCount (row.mQTLGeneCounts - row.geneCount) "two-sided") := by
  intro rows
  induction rows with
  | nil => intro acc; simp [fisherLoop]
  | cons row rest ih =>
      intro acc
      simp only [fisherLoop, ih, List.map_cons]
      simp

/-- C7: for every merged row the statistical test builds the contingency
table a equal to the pathway gene count, b the universe minus it, c the
matched count and d the mQTL count minus the matched count, with the gene
universe fixed at 27533 minus 231, that is 27302; it collects one
two-sided Fisher p value per compound and hands the complete vector to one
single Benjamini Hochberg call, never a partial batch. -/
theorem enrichment_table_and_single_batch_correction
    (fisher : ℚ → ℚ → ℚ → ℚ → String → ℚ) (mt : List ℚ → String → List ℚ)
    (rows : List CompRow) :
    fisherLoop fisher rows [] = rows.map (fun row =>
      fisher row.mapGeneCounts ((27302 : ℚ) - row.mapGeneCounts)
        row.geneCount (row.mQTLGeneCounts - row.geneCount) "two-sided")
    ∧ adjustedPValues fisher mt rows =
        mt (rows.map fun row =>
          fisher row.mapGeneCounts ((27302 : ℚ) - row.mapGeneCounts)
            row.geneCount (row.mQTLGeneCounts - row.geneCount) "two-sided")
          "fdr_bh"
    ∧ (fisherLoop fisher rows []).length = rows.length
    ∧ totalGenes = 27533 - 231 ∧ totalGenes = 27302 := by
  have htg : totalGenes = (27302 : ℚ) := by norm_num [totalGenes]
  have h := fisherLoop_eq_append fisher rows []
  rw [htg, List.nil_append] at h
  refine ⟨h, ?_, ?_, by norm_num [totalGenes], htg⟩
  · unfold adjustedPValues
    rw [h]
  · rw [h, List.length_map]

end MQTL
